import Mathlib

/-!
# BLE scanner (`src/apps/ble_scanner_main.cpp`)

A shallow embedding of the scanner program: the capability string of a
characteristic, the scan callback that collects connectable peripherals once per
address, the filter that selects the target devices, and the loop that connects
to each target, prints its services and disconnects.

Calls into the radio library are the only source of faults.  Every fallible call
(`connect`, `services`, `characteristics`, `disconnect`) is represented by the
outcome it has when the program makes it: `Except.ok` for a normal return,
`Except.error msg` for a thrown `std::exception` whose `what()` is `msg`.
The program's observable behaviour is the ordered list of library calls it makes
and of the text it writes to `std::cout` and `std::cerr`.

The accessors (`identifier`, `address`, `is_connectable`, `uuid`, the five capability
predicates) and `scan_for` are taken to return normally, and the discovery events of
a scan reach the callback one at a time, in order.
-/

namespace BleScanner

/-! ## Data model -/

/-- A GATT characteristic as seen through `SimpleBLE::Characteristic`. -/
structure Characteristic where
  uuid : String
  can_read : Bool
  can_write_request : Bool
  can_write_command : Bool
  can_notify : Bool
  can_indicate : Bool

/-- A GATT service: `uuid()` and the outcome of `characteristics()`. -/
structure Service where
  uuid : String
  characteristics : Except String (List Characteristic)

/-- A peripheral handle: the three accessors used by the program, and the outcome
of each of the three fallible operations when the program invokes it. -/
structure Peripheral where
  identifier : String
  address : String
  is_connectable : Bool
  connect : Except String Unit
  services : Except String (List Service)
  disconnect : Except String Unit

/-- What the program does that can be observed from outside.  The number `t` in a
library call is the position in `targets` of the peripheral the call is made on,
`s` the position of the service in that peripheral's service list, and `ok`
tells whether the call returned normally. -/
inductive Event where
  | scan_for (ms : Nat)
  | connect (t : Nat) (ok : Bool)
  | services (t : Nat) (ok : Bool)
  | characteristics (t : Nat) (s : Nat) (ok : Bool)
  | disconnect (t : Nat) (ok : Bool)
  | cout (text : String)
  | cerr (text : String)
  deriving DecidableEq, Repr

/-- A computation with output and exceptions: the events emitted so far (kept when
an exception is thrown) and either the value returned or the exception in flight. -/
structure Eff (α : Type) where
  trace : List Event
  result : Except String α

namespace Eff

/-- Normal return without any effect. -/
def ret {α : Type} (a : α) : Eff α := ⟨[], .ok a⟩

/-- Sequencing: the continuation runs only if the first part did not throw. -/
def andThen {α β : Type} (m : Eff α) (f : α → Eff β) : Eff β :=
  match m.result with
  | .error e => ⟨m.trace, .error e⟩
  | .ok a => ⟨m.trace ++ (f a).trace, (f a).result⟩

/-- The block `try m catch (const std::exception& e) handler`. -/
def tryCatchBlock {α : Type} (m : Eff α) (handler : String → Eff α) : Eff α :=
  match m.result with
  | .error e => ⟨m.trace ++ (handler e).trace, (handler e).result⟩
  | .ok a => ⟨m.trace, .ok a⟩

end Eff

instance : Monad Eff where
  pure := Eff.ret
  bind := Eff.andThen

instance : MonadExcept String Eff where
  throw e := ⟨[], .error e⟩
  tryCatch := Eff.tryCatchBlock

/-- Writes text to `std::cout`. -/
def cout (text : String) : Eff Unit := ⟨[.cout text], .ok ()⟩

/-- Writes text to `std::cerr`. -/
def cerr (text : String) : Eff Unit := ⟨[.cerr text], .ok ()⟩

/-- Whether an outcome is a normal return. -/
def returned {α : Type} : Except String α → Bool
  | .ok _ => true
  | .error _ => false

/-- The call `p.connect()` on target number `t`. -/
def call_connect (t : Nat) (p : Peripheral) : Eff Unit :=
  ⟨[.connect t (returned p.connect)], p.connect⟩

/-- The call `p.services()` on target number `t`. -/
def call_services (t : Nat) (p : Peripheral) : Eff (List Service) :=
  ⟨[.services t (returned p.services)], p.services⟩

/-- The call `service.characteristics()` on service number `s` of target `t`. -/
def call_characteristics (t s : Nat) (service : Service) : Eff (List Characteristic) :=
  ⟨[.characteristics t s (returned service.characteristics)], service.characteristics⟩

/-- The call `p.disconnect()` on target number `t`. -/
def call_disconnect (t : Nat) (p : Peripheral) : Eff Unit :=
  ⟨[.disconnect t (returned p.disconnect)], p.disconnect⟩

/-- A range-based `for` loop whose body also receives the position of the element,
counted from `i`. -/
def for_each_from {α : Type} (body : Nat → α → Eff Unit) : Nat → List α → Eff Unit
  | _, [] => pure ()
  | i, x :: xs => do
    body i x
    for_each_from body (i + 1) xs

/-! ## `capabilities_string` -/

/-- The function `capabilities_string` (source lines 9-18). -/
def capabilities_string (chr : Characteristic) : String :=
  let caps := ""
  let caps := if chr.can_read then caps ++ "read " else caps
  let caps := if chr.can_write_request then caps ++ "write " else caps
  let caps := if chr.can_write_command then caps ++ "write_no_resp " else caps
  let caps := if chr.can_notify then caps ++ "notify " else caps
  let caps := if chr.can_indicate then caps ++ "indicate " else caps
  let caps := if caps = "" then "none" else caps
  caps

/-- The labels of the capability flags that are set, in the order read, write,
write_no_resp, notify, indicate. -/
def capability_labels (chr : Characteristic) : List String :=
  (if chr.can_read then ["read"] else [])
    ++ (if chr.can_write_request then ["write"] else [])
    ++ (if chr.can_write_command then ["write_no_resp"] else [])
    ++ (if chr.can_notify then ["notify"] else [])
    ++ (if chr.can_indicate then ["indicate"] else [])

/-- The capability string as the specification words it: the labels joined by single
spaces, or the token `none` when there is no label. -/
def capabilities_spec (chr : Characteristic) : String :=
  if capability_labels chr = [] then "none" else " ".intercalate (capability_labels chr)

/-! ## The scan callback (Discovery Collector) -/

/-- The variables the scan callback captures by reference, `scanned` and
`seen_addresses`, together with the text it has written to `std::cout`. -/
structure ScanState where
  scanned : List Peripheral
  seen_addresses : Finset String
  console : List Event

/-- The member `std::unordered_set::insert`: the set afterwards, and `.second`, which
is true exactly when the element was not yet present. -/
def unordered_set_insert (s : Finset String) (a : String) : Finset String × Bool :=
  (insert a s, decide (a ∉ s))

/-- The callback registered with `set_callback_on_scan_found` (source lines 59-66).
The `&&` is short-circuit: an empty address is never inserted into the set. -/
def on_scan_found (st : ScanState) (p : Peripheral) : ScanState :=
  if !p.is_connectable then st
  else
    let addr := p.address
    if addr = "" then st
    else
      let ins := unordered_set_insert st.seen_addresses addr
      if ins.2 then
        { scanned := st.scanned ++ [p],
          seen_addresses := ins.1,
          console := st.console ++
            [.cout ("Found: " ++ p.identifier ++ " [" ++ addr ++ "]" ++ "\n")] }
      else
        { st with seen_addresses := ins.1 }

/-- The state before the scan: empty vector, empty set, nothing printed. -/
def scan_start : ScanState := ⟨[], ∅, []⟩

/-- The state after the callback has been invoked on each discovery event in order. -/
def collect (events : List Peripheral) : ScanState :=
  events.foldl on_scan_found scan_start

/-- An event that passes both tests of the callback apart from the duplicate test:
connectable, with a non-empty address. -/
def eligible (p : Peripheral) : Bool :=
  p.is_connectable && decide (p.address ≠ "")

/-- Reference definition: of the events with the same address only the first one
stays. -/
def keep_first : List Peripheral → List Peripheral
  | [] => []
  | p :: ps => p :: (keep_first ps).filter (fun q => decide (q.address ≠ p.address))

/-- Reference definition of the collector's output. -/
def collect_spec (events : List Peripheral) : List Peripheral :=
  keep_first (events.filter eligible)

/-- Position of the first event carrying address `a`. -/
def first_occurrence (a : String) (events : List Peripheral) : Nat :=
  events.findIdx (fun e => decide (e.address = a))

/-- Position of the first connectable event carrying address `a`. -/
def first_connectable_occurrence (a : String) (events : List Peripheral) : Nat :=
  events.findIdx (fun e => e.is_connectable && decide (e.address = a))

/-! ## The target filter (Target Selector) -/

/-- The filter loop of source lines 73-78, for the identifier `id`. -/
def select_targets (scanned : List Peripheral) (id : String) : List Peripheral :=
  scanned.foldl (fun targets p => if p.identifier = id then targets ++ [p] else targets) []

/-! ## `print_services` and the inspection loop (Device Inspector) -/

/-- The function `print_services` (source lines 20-38) for target number `t`.  The
early `return` after the "no services" line is the first branch of the `if`. -/
def print_services (t : Nat) (p : Peripheral) : Eff Unit := do
  cout "\n  Services and Characteristics:\n"
  try
    let services ← call_services t p
    if services.isEmpty then
      cout "    (no services found)\n"
    else
      for_each_from (fun s service => do
        cout ("    Service: " ++ service.uuid ++ "\n")
        let chrs ← call_characteristics t s service
        for_each_from (fun _ chr =>
          cout ("      Characteristic: " ++ chr.uuid
                  ++ "  [" ++ capabilities_string chr ++ "]\n")) 0 chrs) 0 services
  catch e =>
    cerr ("    Error enumerating services: " ++ e ++ "\n")

/-- The body of the inspection loop (source lines 88-99) for target number `t`. -/
def inspect_target (t : Nat) (p : Peripheral) : Eff Unit := do
  cout ("Device: " ++ p.identifier ++ " [" ++ p.address ++ "]")
  try
    call_connect t p
    cout " - connected\n"
    print_services t p
    call_disconnect t p
  catch e =>
    cout "\n"
    cerr ("  Error: " ++ e ++ "\n")
  cout "\n"

/-- The inspection loop (source lines 87-100). -/
def inspection_loop (targets : List Peripheral) : Eff Unit :=
  for_each_from inspect_target 0 targets

/-! ## `main` -/

/-- The constant `DEVICE_IDENTIFIER`. -/
def DEVICE_IDENTIFIER : String := "SHB1000"

/-- The constant `SCAN_TIMEOUT_SEC`. -/
def SCAN_TIMEOUT_SEC : Nat := 20

/-- The value of `EXIT_SUCCESS`. -/
def EXIT_SUCCESS : Nat := 0

/-- The value of `EXIT_FAILURE`. -/
def EXIT_FAILURE : Nat := 1

/-- A radio adapter, described by the discovery events its scan delivers, in order. -/
structure Adapter where
  found : List Peripheral

/-- The call `adapter.scan_for(ms)` with the three callbacks of source lines 59-68
registered: the start callback, the found callback once per discovery event, the stop
callback.  Returns the captured variables as the callbacks leave them. -/
def scan_for (adapter : Adapter) (ms : Nat) : Eff ScanState :=
  let st := collect adapter.found
  ⟨[.scan_for ms, .cout ("Scanning for " ++ toString SCAN_TIMEOUT_SEC ++ " seconds...\n\n")]
      ++ st.console ++ [.cout "\nScan complete.\n"], .ok st⟩

/-- The function `main` (source lines 40-103); `adapter_opt` is what
`get_first_adapter()` returned, the value is the exit status.  The two WinRT
configuration flags and `scanned.reserve(32)` have no effect on what is modelled
here and are left out. -/
def main (adapter_opt : Option Adapter) : Eff Nat :=
  match adapter_opt with
  | none => do
    cerr "No Bluetooth adapter found.\n"
    return EXIT_FAILURE
  | some adapter => do
    let st ← scan_for adapter (SCAN_TIMEOUT_SEC * 1000)
    let targets := select_targets st.scanned DEVICE_IDENTIFIER
    if targets.isEmpty then
      cerr ("No " ++ DEVICE_IDENTIFIER ++ " devices found.\n")
      return EXIT_FAILURE
    else
      cout ("\nFound " ++ toString targets.length ++ " " ++ DEVICE_IDENTIFIER
              ++ " device(s). Connecting to enumerate services...\n\n")
      inspection_loop targets
      return EXIT_SUCCESS

/-! ## Observations on a trace -/

/-- The targets on which `connect()` was requested, in the order of the requests. -/
def connect_requests : List Event → List Nat
  | [] => []
  | .connect t _ :: es => t :: connect_requests es
  | _ :: es => connect_requests es

/-- Number of `services()` requests made on target `t`. -/
def services_requests (t : Nat) (tr : List Event) : Nat :=
  tr.countP (fun e => match e with
    | .services u _ => decide (u = t)
    | _ => false)

/-- Number of `disconnect()` requests made on target `t`. -/
def disconnect_requests (t : Nat) (tr : List Event) : Nat :=
  tr.countP (fun e => match e with
    | .disconnect u _ => decide (u = t)
    | _ => false)

/-- Number of error reports, that is of writes to `std::cerr`. -/
def errors_reported (tr : List Event) : Nat :=
  tr.countP (fun e => match e with
    | .cerr _ => true
    | _ => false)

/-- Number of `scan_for` calls. -/
def scans_started (tr : List Event) : Nat :=
  tr.countP (fun e => match e with
    | .scan_for _ => true
    | _ => false)

/-- The per-target pieces of the loop's trace: what iteration `i`, `i + 1`, ... emit. -/
def segments_from : Nat → List Peripheral → List (List Event)
  | _, [] => []
  | i, p :: ps => (inspect_target i p).trace :: segments_from (i + 1) ps

/-- Effect of one event on the set of connected targets: a target enters the set
when its `connect()` succeeds and leaves it when a `disconnect()` on it succeeds. -/
def link_step (live : Finset Nat) : Event → Finset Nat
  | .connect t true => insert t live
  | .disconnect t true => live.erase t
  | _ => live

/-- The set of connected targets after the events of `tr`, starting from `live`. -/
def live_links_from (live : Finset Nat) (tr : List Event) : Finset Nat :=
  tr.foldl link_step live

/-- The set of connected targets after the events of `tr`, none connected before. -/
def live_links (tr : List Event) : Finset Nat :=
  live_links_from ∅ tr

/-- The set of connected targets at every point of `tr`: before its first event,
between any two events, and after the last one. -/
def link_states (live : Finset Nat) : List Event → List (Finset Nat)
  | [] => [live]
  | e :: es => live :: link_states (link_step live e) es

/-- The events the enumeration of target `t` can emit: `services()` and
`characteristics()` calls on `t`, and console output. -/
def enumeration_event (t : Nat) : Event → Bool
  | .services u _ => decide (u = t)
  | .characteristics u _ _ => decide (u = t)
  | .cout _ => true
  | .cerr _ => true
  | _ => false

/-! ## Sample devices -/

/-- A service with two characteristics. -/
def sample_service : Service :=
  ⟨"180a", .ok [⟨"2a29", true, false, false, false, false⟩,
                ⟨"2a19", true, false, false, true, false⟩]⟩

/-- A target on which every call succeeds and which has one service. -/
def device_ok : Peripheral :=
  ⟨"SHB1000", "AA:00", true, .ok (), .ok [sample_service], .ok ()⟩

/-- A target that connects and has no service. -/
def device_no_services : Peripheral :=
  ⟨"SHB1000", "AA:01", true, .ok (), .ok [], .ok ()⟩

/-- A target whose `connect()` throws. -/
def device_connect_fault : Peripheral :=
  ⟨"SHB1000", "AA:02", true, .error "connect timed out", .ok [sample_service], .ok ()⟩

/-- A target whose `services()` throws once it is connected. -/
def device_enumeration_fault : Peripheral :=
  ⟨"SHB1000", "AA:03", true, .ok (), .error "not connected", .ok ()⟩

/-- A target that connects, but whose `disconnect()` throws. -/
def device_disconnect_fault : Peripheral :=
  ⟨"SHB1000", "AA:04", true, .ok (), .ok [sample_service], .error "disconnect failed"⟩

/-- A discovery event for a device on which every later call would succeed. -/
def event_at (identifier address : String) (connectable : Bool) : Peripheral :=
  ⟨identifier, address, connectable, .ok (), .ok [], .ok ()⟩

/-- A characteristic that can only be read. -/
def read_only_characteristic : Characteristic :=
  ⟨"2a29", true, false, false, false, false⟩

/-! ## Running a computation -/

theorem Eff.pure_eq {α : Type} (a : α) : (pure a : Eff α) = ⟨[], .ok a⟩ := rfl

theorem Eff.bind_eq {α β : Type} (m : Eff α) (f : α → Eff β) :
    (m >>= f) = Eff.andThen m f := rfl

theorem Eff.tryCatch_eq {α : Type} (m : Eff α) (h : String → Eff α) :
    (tryCatch m h) = Eff.tryCatchBlock m h := rfl

theorem Eff.andThen_emits {α β : Type} (P : Event → Prop) (m : Eff α) (f : α → Eff β)
    (hm : ∀ e ∈ m.trace, P e) (hf : ∀ a, ∀ e ∈ (f a).trace, P e) :
    ∀ e ∈ (Eff.andThen m f).trace, P e := by
  intro e he
  unfold Eff.andThen at he
  cases hr : m.result with
  | error x => rw [hr] at he; exact hm e he
  | ok a =>
    rw [hr] at he
    rcases List.mem_append.mp he with h | h
    · exact hm e h
    · exact hf a e h

theorem Eff.tryCatchBlock_emits {α : Type} (P : Event → Prop) (m : Eff α)
    (h : String → Eff α)
    (hm : ∀ e ∈ m.trace, P e) (hh : ∀ x, ∀ e ∈ (h x).trace, P e) :
    ∀ e ∈ (Eff.tryCatchBlock m h).trace, P e := by
  intro e he
  unfold Eff.tryCatchBlock at he
  cases hr : m.result with
  | ok a => rw [hr] at he; exact hm e he
  | error x =>
    rw [hr] at he
    rcases List.mem_append.mp he with h1 | h1
    · exact hm e h1
    · exact hh x e h1

theorem for_each_from_emits {α : Type} (P : Event → Prop) (body : Nat → α → Eff Unit)
    (hb : ∀ i x, ∀ e ∈ (body i x).trace, P e) (i : Nat) (xs : List α) :
    ∀ e ∈ (for_each_from body i xs).trace, P e := by
  induction xs generalizing i with
  | nil => intro e he; simp [for_each_from, Eff.pure_eq] at he
  | cons x xs ih =>
    simp only [for_each_from, Eff.bind_eq]
    exact Eff.andThen_emits P _ _ (hb i x) (fun _ => ih (i + 1))

theorem for_each_from_result {α : Type} (body : Nat → α → Eff Unit)
    (hb : ∀ i x, (body i x).result = .ok ()) (i : Nat) (xs : List α) :
    (for_each_from body i xs).result = .ok () := by
  induction xs generalizing i with
  | nil => rfl
  | cons x xs ih =>
    simp only [for_each_from, Eff.bind_eq, Eff.andThen, hb i x]
    exact ih (i + 1)

theorem print_services_result (t : Nat) (p : Peripheral) :
    (print_services t p).result = .ok () := by
  simp only [print_services, Eff.bind_eq, Eff.tryCatch_eq, Eff.andThen, cout]
  unfold Eff.tryCatchBlock
  split
  · rfl
  · rfl

theorem print_services_emits (t : Nat) (p : Peripheral) :
    ∀ e ∈ (print_services t p).trace, enumeration_event t e = true := by
  simp only [print_services, Eff.bind_eq, Eff.tryCatch_eq]
  apply Eff.andThen_emits
  · simp [cout, enumeration_event]
  · intro _
    apply Eff.tryCatchBlock_emits
    · apply Eff.andThen_emits
      · simp [call_services, enumeration_event]
      · intro services
        split
        · simp [cout, enumeration_event]
        · apply for_each_from_emits
          intro s service
          apply Eff.andThen_emits
          · simp [cout, enumeration_event]
          · intro _
            apply Eff.andThen_emits
            · simp [call_characteristics, enumeration_event]
            · intro chrs
              apply for_each_from_emits
              intro _ chr
              simp [cout, enumeration_event]
    · intro x
      simp [cerr, enumeration_event]

theorem print_services_no_services (t : Nat) (p : Peripheral) (h : p.services = .ok []) :
    (print_services t p).trace =
      [.cout "\n  Services and Characteristics:\n", .services t true,
       .cout "    (no services found)\n"] := by
  simp [print_services, Eff.bind_eq, Eff.tryCatch_eq, Eff.andThen, Eff.tryCatchBlock, cout,
    call_services, h, returned]

theorem inspect_target_connect_fault (t : Nat) (p : Peripheral) (msg : String)
    (h : p.connect = .error msg) :
    inspect_target t p =
      ⟨[.cout ("Device: " ++ p.identifier ++ " [" ++ p.address ++ "]"),
        .connect t false, .cout "\n", .cerr ("  Error: " ++ msg ++ "\n"), .cout "\n"],
       .ok ()⟩ := by
  simp [inspect_target, Eff.bind_eq, Eff.tryCatch_eq, Eff.andThen, Eff.tryCatchBlock, cout, cerr,
    call_connect, h, returned]

theorem inspect_target_connected (t : Nat) (p : Peripheral) (h : p.connect = .ok ()) :
    inspect_target t p =
      ⟨[.cout ("Device: " ++ p.identifier ++ " [" ++ p.address ++ "]"),
        .connect t true, .cout " - connected\n"] ++ (print_services t p).trace
        ++ [.disconnect t (returned p.disconnect)]
        ++ (match p.disconnect with
            | .ok _ => []
            | .error msg => [.cout "\n", .cerr ("  Error: " ++ msg ++ "\n")])
        ++ [.cout "\n"],
       .ok ()⟩ := by
  have hps := print_services_result t p
  cases hd : p.disconnect <;>
  simp [inspect_target, Eff.bind_eq, Eff.tryCatch_eq, Eff.andThen, Eff.tryCatchBlock, cout, cerr,
    call_connect, call_disconnect, h, hd, hps, returned]

theorem inspect_target_result (t : Nat) (p : Peripheral) :
    (inspect_target t p).result = .ok () := by
  cases hc : p.connect with
  | error msg => rw [inspect_target_connect_fault t p msg hc]
  | ok u => rw [inspect_target_connected t p hc]

theorem for_each_from_inspect_trace (i : Nat) (targets : List Peripheral) :
    (for_each_from inspect_target i targets).trace = (segments_from i targets).flatten := by
  induction targets generalizing i with
  | nil => rfl
  | cons p ps ih =>
    simp only [for_each_from, Eff.bind_eq, Eff.andThen, inspect_target_result, segments_from,
      List.flatten_cons, ih]

theorem inspection_loop_result (targets : List Peripheral) :
    (inspection_loop targets).result = .ok () :=
  for_each_from_result inspect_target inspect_target_result 0 targets

theorem inspection_loop_trace (targets : List Peripheral) :
    (inspection_loop targets).trace = (segments_from 0 targets).flatten :=
  for_each_from_inspect_trace 0 targets

/-! ## Observations and concatenation -/

theorem connect_requests_append (a b : List Event) :
    connect_requests (a ++ b) = connect_requests a ++ connect_requests b := by
  induction a with
  | nil => rfl
  | cons e es ih => cases e <;> simp [connect_requests, ih]

theorem connect_requests_enumeration (t : Nat) (tr : List Event)
    (h : ∀ e ∈ tr, enumeration_event t e = true) : connect_requests tr = [] := by
  induction tr with
  | nil => rfl
  | cons e es ih =>
    have he := h e (List.mem_cons_self e es)
    have hes := ih (fun x hx => h x (List.mem_cons_of_mem e hx))
    cases e <;> simp_all [connect_requests, enumeration_event]

theorem disconnect_requests_enumeration (k t : Nat) (tr : List Event)
    (h : ∀ e ∈ tr, enumeration_event t e = true) : disconnect_requests k tr = 0 := by
  unfold disconnect_requests
  rw [List.countP_eq_zero]
  intro e he
  have := h e he
  cases e <;> simp_all [enumeration_event]

theorem services_requests_enumeration (k t : Nat) (hk : t ≠ k) (tr : List Event)
    (h : ∀ e ∈ tr, enumeration_event t e = true) : services_requests k tr = 0 := by
  unfold services_requests
  rw [List.countP_eq_zero]
  intro e he
  have := h e he
  cases e <;> simp_all [enumeration_event]

theorem live_links_from_append (live : Finset Nat) (a b : List Event) :
    live_links_from live (a ++ b) = live_links_from (live_links_from live a) b := by
  simp [live_links_from, List.foldl_append]

theorem live_links_from_enumeration (t : Nat) (live : Finset Nat) (tr : List Event)
    (h : ∀ e ∈ tr, enumeration_event t e = true) : live_links_from live tr = live := by
  induction tr with
  | nil => rfl
  | cons e es ih =>
    have he := h e (List.mem_cons_self e es)
    have hes := ih (fun x hx => h x (List.mem_cons_of_mem e hx))
    cases e <;> simp_all [live_links_from, link_step, enumeration_event]

/-! ## One iteration of the inspection loop -/

theorem segment_connect_requests (t : Nat) (p : Peripheral) :
    connect_requests (inspect_target t p).trace = [t] := by
  cases hc : p.connect with
  | error msg => rw [inspect_target_connect_fault t p msg hc]; rfl
  | ok u =>
    rw [inspect_target_connected t p hc]
    have hps := connect_requests_enumeration t _ (print_services_emits t p)
    generalize (print_services t p).trace = tr at hps
    cases hd : p.disconnect <;>
    simp [connect_requests_append, connect_requests, hps]

theorem segment_disconnect_requests (k t : Nat) (p : Peripheral) :
    disconnect_requests k (inspect_target t p).trace =
      if t = k ∧ returned p.connect = true then 1 else 0 := by
  cases hc : p.connect with
  | error msg => rw [inspect_target_connect_fault t p msg hc]; simp [disconnect_requests, returned]
  | ok u =>
    rw [inspect_target_connected t p hc]
    have hps := disconnect_requests_enumeration k t _ (print_services_emits t p)
    generalize (print_services t p).trace = tr at hps
    unfold disconnect_requests at hps ⊢
    cases hd : p.disconnect <;> by_cases htk : t = k <;>
    simp [List.countP_cons, hps, returned, htk]

theorem segment_services_requests_other (k t : Nat) (hk : t ≠ k) (p : Peripheral) :
    services_requests k (inspect_target t p).trace = 0 := by
  cases hc : p.connect with
  | error msg => rw [inspect_target_connect_fault t p msg hc]; simp [services_requests]
  | ok u =>
    rw [inspect_target_connected t p hc]
    have hps := services_requests_enumeration k t hk _ (print_services_emits t p)
    generalize (print_services t p).trace = tr at hps
    unfold services_requests at hps ⊢
    cases hd : p.disconnect <;>
    simp [List.countP_cons, hps]

/-! ## The whole inspection loop -/

theorem segments_connect_requests (i : Nat) (targets : List Peripheral) :
    connect_requests (segments_from i targets).flatten = List.range' i targets.length := by
  induction targets generalizing i with
  | nil => rfl
  | cons p ps ih =>
    simp [segments_from, connect_requests_append, segment_connect_requests, ih, List.range'_succ]

theorem segments_countP_later (q : Event → Bool) (k i : Nat) (hik : k < i)
    (H : ∀ j p, j ≠ k → (inspect_target j p).trace.countP q = 0) (targets : List Peripheral) :
    (segments_from i targets).flatten.countP q = 0 := by
  induction targets generalizing i with
  | nil => rfl
  | cons p ps ih =>
    simp only [segments_from, List.flatten_cons, List.countP_append]
    rw [H i p (by omega), ih (i + 1) (by omega)]

theorem segments_countP_at (q : Event → Bool) (k : Nat)
    (H : ∀ j p, j ≠ k → (inspect_target j p).trace.countP q = 0)
    (i n : Nat) (targets : List Peripheral) (p : Peripheral)
    (hp : targets[n]? = some p) (hk : k = i + n) :
    (segments_from i targets).flatten.countP q = (inspect_target k p).trace.countP q := by
  induction targets generalizing i n with
  | nil => simp at hp
  | cons p0 ps ih =>
    simp only [segments_from, List.flatten_cons, List.countP_append]
    cases n with
    | zero =>
      simp at hp
      subst hp
      have hki : k = i := by omega
      subst hki
      rw [segments_countP_later q k (k + 1) (by omega) H ps]
      simp
    | succ m =>
      simp at hp
      rw [H i p0 (by omega), ih (i + 1) m hp (by omega)]
      simp

theorem loop_disconnect_requests (k : Nat) (targets : List Peripheral) (p : Peripheral)
    (hp : targets[k]? = some p) :
    disconnect_requests k (inspection_loop targets).trace =
      if returned p.connect = true then 1 else 0 := by
  rw [inspection_loop_trace]
  have H : ∀ j q, j ≠ k → disconnect_requests k (inspect_target j q).trace = 0 := by
    intro j q hj
    rw [segment_disconnect_requests]
    simp [hj]
  have h := segments_countP_at _ k H 0 k targets p hp (by omega)
  have h2 := segment_disconnect_requests k k p
  unfold disconnect_requests at h2 ⊢
  rw [h, h2]
  simp

theorem loop_services_requests (k : Nat) (targets : List Peripheral) (p : Peripheral)
    (hp : targets[k]? = some p) :
    services_requests k (inspection_loop targets).trace =
      services_requests k (inspect_target k p).trace := by
  rw [inspection_loop_trace]
  exact segments_countP_at _ k (fun j q hj => segment_services_requests_other k j hj q)
    0 k targets p hp (by omega)

theorem segments_getElem (i n : Nat) (targets : List Peripheral) :
    (segments_from i targets)[n]? =
      targets[n]?.map (fun p => (inspect_target (i + n) p).trace) := by
  induction targets generalizing i n with
  | nil => simp [segments_from]
  | cons p ps ih =>
    cases n with
    | zero => simp [segments_from]
    | succ m =>
      simp only [segments_from, List.getElem?_cons_succ]
      rw [ih (i + 1) m]
      have : i + 1 + m = i + (m + 1) := by omega
      rw [this]

theorem segment_subset_loop (k : Nat) (targets : List Peripheral) (p : Peripheral)
    (hp : targets[k]? = some p) :
    ∀ e ∈ (inspect_target k p).trace, e ∈ (inspection_loop targets).trace := by
  intro e he
  rw [inspection_loop_trace, List.mem_flatten]
  refine ⟨(inspect_target k p).trace, ?_, he⟩
  have h := segments_getElem 0 k targets
  rw [hp] at h
  simp only [Option.map_some', Nat.zero_add] at h
  exact List.getElem?_mem h


/-! ## Connected targets along a trace -/

theorem link_states_cons (live : Finset Nat) (e : Event) (es : List Event) :
    link_states live (e :: es) = live :: link_states (link_step live e) es := rfl

theorem live_links_from_cons (live : Finset Nat) (e : Event) (es : List Event) :
    live_links_from live (e :: es) = live_links_from (link_step live e) es := rfl

theorem link_states_append (live S : Finset Nat) (a b : List Event) :
    S ∈ link_states live (a ++ b) ↔
      S ∈ link_states live a ∨ S ∈ link_states (live_links_from live a) b := by
  induction a generalizing live with
  | nil =>
    cases b with
    | nil => simp [link_states, live_links_from]
    | cons e es => simp [link_states, live_links_from]
  | cons e es ih =>
    rw [List.cons_append, link_states_cons, link_states_cons, live_links_from_cons]
    simp only [List.mem_cons, ih]
    tauto

theorem link_states_enumeration (t : Nat) (live S : Finset Nat) (tr : List Event)
    (h : ∀ e ∈ tr, enumeration_event t e = true) (hS : S ∈ link_states live tr) : S = live := by
  induction tr generalizing live with
  | nil => simpa [link_states] using hS
  | cons e es ih =>
    have he := h e (List.mem_cons_self e es)
    have hstep : link_step live e = live := by
      cases e <;> simp_all [link_step, enumeration_event]
    simp only [link_states, List.mem_cons, hstep] at hS
    rcases hS with hS | hS
    · exact hS
    · exact ih live (fun x hx => h x (List.mem_cons_of_mem e hx)) hS

theorem live_links_take_mem (live : Finset Nat) (tr : List Event) (n : Nat) :
    live_links_from live (tr.take n) ∈ link_states live tr := by
  induction tr generalizing live n with
  | nil => simp [link_states, live_links_from]
  | cons e es ih =>
    cases n with
    | zero => simp [link_states, live_links_from]
    | succ m =>
      simp only [List.take_succ_cons, link_states, List.mem_cons]
      right
      exact ih (link_step live e) m

theorem segment_link_states (t : Nat) (p : Peripheral)
    (h : p.connect = .ok () → p.disconnect = .ok ()) :
    live_links_from ∅ (inspect_target t p).trace = ∅ ∧
      ∀ S ∈ link_states ∅ (inspect_target t p).trace, S.card ≤ 1 := by
  cases hc : p.connect with
  | error msg =>
    rw [inspect_target_connect_fault t p msg hc]
    simp [live_links_from, link_step, link_states]
  | ok u =>
    have hd := h hc
    rw [inspect_target_connected t p hc]
    have hps := print_services_emits t p
    generalize (print_services t p).trace = tr at hps
    have h1 : ∀ L, live_links_from L tr = L := fun L => live_links_from_enumeration t L tr hps
    have h2 : ∀ L S, S ∈ link_states L tr → S = L :=
      fun L S => link_states_enumeration t L S tr hps
    constructor
    · simp only [hd, live_links_from_append, h1, returned]
      simp [live_links_from, link_step]
    · intro S hS
      simp only [hd, returned, link_states_append, live_links_from_append, h1] at hS
      rcases hS with ((((hS | hS) | hS) | hS) | hS)
      · simp [link_states, link_step] at hS
        rcases hS with hS | hS <;> simp [hS]
      · have := h2 _ _ hS
        simp [this, live_links_from, link_step]
      · simp [link_states, link_step, live_links_from] at hS
        rcases hS with hS | hS <;> simp [hS]
      · simp [link_states, link_step, live_links_from] at hS
        simp [hS]
      · simp [link_states, link_step, live_links_from] at hS
        simp [hS]

theorem segments_link_states (i : Nat) (targets : List Peripheral)
    (h : ∀ p ∈ targets, p.connect = .ok () → p.disconnect = .ok ()) :
    ∀ S ∈ link_states ∅ (segments_from i targets).flatten, S.card ≤ 1 := by
  induction targets generalizing i with
  | nil => intro S hS; simp [segments_from, link_states] at hS; simp [hS]
  | cons p ps ih =>
    intro S hS
    have hseg := segment_link_states i p (h p (List.mem_cons_self p ps))
    simp only [segments_from, List.flatten_cons, link_states_append, hseg.1] at hS
    rcases hS with hS | hS
    · exact hseg.2 S hS
    · exact ih (i + 1) (fun q hq => h q (List.mem_cons_of_mem p hq)) S hS

/-! ## Claims about the inspection loop -/

/-- C3, disconnect-always: every target whose `connect()` returns normally gets exactly
one `disconnect()` request in the inspection loop, whatever `services()` and
`characteristics()` do; and when it has no service the loop prints
"(no services found)", without any error report for the enumeration. -/
theorem disconnect_requested_exactly_once (targets : List Peripheral) (k : Nat)
    (p : Peripheral) (hp : targets[k]? = some p) (hc : p.connect = .ok ()) :
    disconnect_requests k (inspection_loop targets).trace = 1 ∧
      (p.services = .ok [] →
        (print_services k p).trace =
            [.cout "\n  Services and Characteristics:\n", .services k true,
             .cout "    (no services found)\n"] ∧
          Event.cout "    (no services found)\n" ∈ (inspection_loop targets).trace) := by
  constructor
  · rw [loop_disconnect_requests k targets p hp, hc]
    rfl
  · intro hs
    refine ⟨print_services_no_services k p hs, ?_⟩
    apply segment_subset_loop k targets p hp
    rw [inspect_target_connected k p hc, print_services_no_services k p hs]
    simp

theorem disconnect_requested_exactly_once_witness :
    [device_enumeration_fault, device_no_services][1]? = some device_no_services ∧
      device_no_services.connect = .ok () ∧
      device_no_services.services = .ok [] ∧
      disconnect_requests 1
        (inspection_loop [device_enumeration_fault, device_no_services]).trace = 1 ∧
      Event.cout "    (no services found)\n" ∈
        (inspection_loop [device_enumeration_fault, device_no_services]).trace :=
  have h := disconnect_requested_exactly_once
    [device_enumeration_fault, device_no_services] 1 device_no_services rfl rfl
  ⟨rfl, rfl, rfl, h.1, (h.2 rfl).2⟩

/-- C4, inspector isolation: the inspection loop never throws and requests `connect()`
once on every target, in input order, whatever faults the targets raise; its trace
is the concatenation of the per-target pieces; and the piece of a target `k` whose
`connect()` throws contains exactly one error report. -/
theorem inspector_isolation (targets : List Peripheral) :
    (inspection_loop targets).result = .ok () ∧
      connect_requests (inspection_loop targets).trace = List.range targets.length ∧
      (inspection_loop targets).trace = (segments_from 0 targets).flatten ∧
      ∀ (k : Nat) (p : Peripheral) (msg : String),
        targets[k]? = some p → p.connect = .error msg →
          (segments_from 0 targets)[k]? = some (inspect_target k p).trace ∧
            errors_reported (inspect_target k p).trace = 1 := by
  refine ⟨inspection_loop_result targets, ?_, inspection_loop_trace targets, ?_⟩
  · rw [inspection_loop_trace, segments_connect_requests, List.range_eq_range']
  · intro k p msg hp hc
    constructor
    · rw [segments_getElem, hp]
      simp
    · rw [inspect_target_connect_fault k p msg hc]
      rfl

theorem inspector_isolation_witness :
    [device_ok, device_connect_fault, device_disconnect_fault][1]? = some device_connect_fault ∧
      device_connect_fault.connect = .error "connect timed out" ∧
      connect_requests
        (inspection_loop [device_ok, device_connect_fault, device_disconnect_fault]).trace
          = [0, 1, 2] ∧
      errors_reported (inspect_target 1 device_connect_fault).trace = 1 :=
  have h := inspector_isolation [device_ok, device_connect_fault, device_disconnect_fault]
  ⟨rfl, rfl, h.2.1, (h.2.2.2 1 device_connect_fault "connect timed out" rfl rfl).2⟩

/-- C5, no disconnect after a failed connect: when `connect()` on target `k` throws,
the loop makes no `services()` request and no `disconnect()` request on `k`, and what
iteration `k` emits is the device line, the failed connect and one error report. -/
theorem no_disconnect_after_failed_connect (targets : List Peripheral) (k : Nat)
    (p : Peripheral) (msg : String) (hp : targets[k]? = some p)
    (hc : p.connect = .error msg) :
    services_requests k (inspection_loop targets).trace = 0 ∧
      disconnect_requests k (inspection_loop targets).trace = 0 ∧
      (inspect_target k p).trace =
        [.cout ("Device: " ++ p.identifier ++ " [" ++ p.address ++ "]"),
         .connect k false, .cout "\n", .cerr ("  Error: " ++ msg ++ "\n"), .cout "\n"] ∧
      errors_reported (inspect_target k p).trace = 1 := by
  have hseg := inspect_target_connect_fault k p msg hc
  refine ⟨?_, ?_, ?_, ?_⟩
  · rw [loop_services_requests k targets p hp, hseg]
    rfl
  · rw [loop_disconnect_requests k targets p hp, hc]
    rfl
  · rw [hseg]
  · rw [hseg]
    rfl

theorem no_disconnect_after_failed_connect_witness :
    [device_connect_fault, device_ok][0]? = some device_connect_fault ∧
      device_connect_fault.connect = .error "connect timed out" ∧
      services_requests 0 (inspection_loop [device_connect_fault, device_ok]).trace = 0 ∧
      disconnect_requests 0 (inspection_loop [device_connect_fault, device_ok]).trace = 0 ∧
      errors_reported (inspect_target 0 device_connect_fault).trace = 1 :=
  have h := no_disconnect_after_failed_connect [device_connect_fault, device_ok] 0
    device_connect_fault "connect timed out" rfl rfl
  ⟨rfl, rfl, h.1, h.2.1, h.2.2.2⟩

/-- C9 as stated fails: with two targets that both connect, the first of which throws
in `disconnect()`, both targets are connected after the second `connect()`. -/
theorem two_live_links_counterexample :
    live_links ((inspection_loop [device_disconnect_fault, device_ok]).trace.take 15)
        = {0, 1} ∧
      ¬ (live_links
          ((inspection_loop [device_disconnect_fault, device_ok]).trace.take 15)).card ≤ 1 := by
  decide

/-- C9, amended: when no `disconnect()` issued by the loop throws (every target whose
`connect()` succeeds also disconnects successfully), at most one target is connected
at every point of the inspection loop. -/
theorem at_most_one_live_link (targets : List Peripheral)
    (h : ∀ p ∈ targets, p.connect = .ok () → p.disconnect = .ok ()) (n : Nat) :
    (live_links ((inspection_loop targets).trace.take n)).card ≤ 1 := by
  rw [inspection_loop_trace]
  exact segments_link_states 0 targets h _ (live_links_take_mem ∅ _ n)

theorem at_most_one_live_link_witness :
    (∀ p ∈ [device_ok, device_connect_fault, device_enumeration_fault],
        p.connect = .ok () → p.disconnect = .ok ()) ∧
      (live_links ((inspection_loop
        [device_ok, device_connect_fault, device_enumeration_fault]).trace.take 4)).card ≤ 1 :=
  have hyp : ∀ p ∈ [device_ok, device_connect_fault, device_enumeration_fault],
      p.connect = .ok () → p.disconnect = .ok () := by
    intro p hp _
    simp only [List.mem_cons, List.mem_singleton, List.not_mem_nil, or_false] at hp
    rcases hp with rfl | rfl | rfl <;> rfl
  ⟨hyp, at_most_one_live_link _ hyp 4⟩

/-! ## The scan callback, case by case -/

theorem on_scan_found_rejected (st : ScanState) (p : Peripheral) (h : eligible p = false) :
    on_scan_found st p = st := by
  unfold eligible at h
  unfold on_scan_found
  cases hc : p.is_connectable with
  | false => simp
  | true =>
    have ha : p.address = "" := by simpa [hc] using h
    simp [ha]

theorem on_scan_found_duplicate (st : ScanState) (p : Peripheral)
    (h : p.address ∈ st.seen_addresses) : on_scan_found st p = st := by
  unfold on_scan_found
  cases hc : p.is_connectable with
  | false => simp
  | true =>
    by_cases ha : p.address = ""
    · simp [ha]
    · simp [ha, unordered_set_insert, h, Finset.insert_eq_of_mem h]

theorem on_scan_found_accepted (st : ScanState) (p : Peripheral) (he : eligible p = true)
    (h : p.address ∉ st.seen_addresses) :
    on_scan_found st p =
      { scanned := st.scanned ++ [p],
        seen_addresses := insert p.address st.seen_addresses,
        console := st.console ++
          [.cout ("Found: " ++ p.identifier ++ " [" ++ p.address ++ "]" ++ "\n")] } := by
  unfold eligible at he
  simp only [Bool.and_eq_true, decide_eq_true_eq] at he
  unfold on_scan_found
  simp [he.1, he.2, unordered_set_insert, h]

theorem collect_snoc (events : List Peripheral) (p : Peripheral) :
    collect (events ++ [p]) = on_scan_found (collect events) p := by
  simp [collect, List.foldl_append]

theorem foldl_on_scan_found_scanned (st : ScanState) (events : List Peripheral) :
    (events.foldl on_scan_found st).scanned =
      st.scanned ++ (keep_first (events.filter eligible)).filter
        (fun q => decide (q.address ∉ st.seen_addresses)) := by
  induction events generalizing st with
  | nil => simp [keep_first]
  | cons p ps ih =>
    rw [List.foldl_cons]
    cases he : eligible p with
    | false =>
      rw [on_scan_found_rejected st p he, ih st]
      simp [List.filter_cons, he]
    | true =>
      by_cases hs : p.address ∈ st.seen_addresses
      · rw [on_scan_found_duplicate st p hs, ih st]
        simp only [List.filter_cons, he, if_true, keep_first, hs, not_true_eq_false,
          decide_False, Bool.false_eq_true, if_false, List.filter_filter]
        congr 1
        apply List.filter_congr
        intro q _
        by_cases hq : q.address = p.address
        · simp [hq, hs]
        · simp [hq]
      · rw [on_scan_found_accepted st p he hs, ih]
        simp only [List.filter_cons, he, if_true, keep_first, hs, not_false_eq_true,
          decide_True, List.filter_filter, List.append_assoc, List.singleton_append]
        congr 2
        apply List.filter_congr
        intro q _
        simp [Finset.mem_insert, not_or, Bool.and_comm]

theorem collect_scanned_eq_spec (events : List Peripheral) :
    (collect events).scanned = collect_spec events := by
  unfold collect collect_spec
  rw [foldl_on_scan_found_scanned]
  simp [scan_start]

/-! ## Invariants of the scan -/

theorem collect_seen_eq (events : List Peripheral) :
    (collect events).seen_addresses =
      ((collect events).scanned.map Peripheral.address).toFinset := by
  induction events using List.reverseRecOn with
  | nil => rfl
  | append_singleton evs p ih =>
    rw [collect_snoc]
    cases he : eligible p with
    | false => rw [on_scan_found_rejected _ p he]; exact ih
    | true =>
      by_cases hs : p.address ∈ (collect evs).seen_addresses
      · rw [on_scan_found_duplicate _ p hs]; exact ih
      · rw [on_scan_found_accepted _ p he hs]
        simp only [List.map_append, List.map_cons, List.map_nil, List.toFinset_append,
          List.toFinset_cons, List.toFinset_nil, ← ih]
        ext a
        simp [Finset.mem_insert, Finset.mem_union, or_comm]

theorem collect_seen_iff (events : List Peripheral) (a : String) :
    a ∈ (collect events).seen_addresses ↔
      ∃ e ∈ events, eligible e = true ∧ e.address = a := by
  induction events using List.reverseRecOn with
  | nil => simp [collect, scan_start]
  | append_singleton evs p ih =>
    rw [collect_snoc]
    cases he : eligible p with
    | false =>
      rw [on_scan_found_rejected _ p he, ih]
      constructor
      · rintro ⟨e, hm, h⟩
        exact ⟨e, List.mem_append_left _ hm, h⟩
      · rintro ⟨e, hm, h⟩
        rcases List.mem_append.mp hm with hm | hm
        · exact ⟨e, hm, h⟩
        · simp only [List.mem_singleton] at hm
          subst hm
          rw [he] at h
          exact absurd h.1 (by simp)
    | true =>
      by_cases hs : p.address ∈ (collect evs).seen_addresses
      · rw [on_scan_found_duplicate _ p hs]
        constructor
        · intro ha
          obtain ⟨e, hm, h⟩ := ih.mp ha
          exact ⟨e, List.mem_append_left _ hm, h⟩
        · rintro ⟨e, hm, h⟩
          rcases List.mem_append.mp hm with hm | hm
          · exact ih.mpr ⟨e, hm, h⟩
          · simp only [List.mem_singleton] at hm
            subst hm
            rw [← h.2]
            exact hs
      · rw [on_scan_found_accepted _ p he hs]
        simp only [Finset.mem_insert, ih]
        constructor
        · rintro (h | ⟨e, hm, h⟩)
          · exact ⟨p, by simp, he, h.symm⟩
          · exact ⟨e, List.mem_append_left _ hm, h⟩
        · rintro ⟨e, hm, h⟩
          rcases List.mem_append.mp hm with hm | hm
          · exact Or.inr ⟨e, hm, h⟩
          · simp only [List.mem_singleton] at hm
            subst hm
            exact Or.inl h.2.symm

theorem collect_seen_nonempty (events : List Peripheral) :
    "" ∉ (collect events).seen_addresses := by
  intro h
  obtain ⟨e, _, he, ha⟩ := (collect_seen_iff events "").mp h
  simp [eligible, ha] at he

/-! ## First occurrences -/

theorem first_connectable_occurrence_old (a : String) (events : List Peripheral)
    (p : Peripheral) (h : first_connectable_occurrence a events < events.length) :
    first_connectable_occurrence a (events ++ [p]) = first_connectable_occurrence a events := by
  unfold first_connectable_occurrence at h ⊢
  rw [List.findIdx_append, if_pos h]

theorem first_connectable_occurrence_new (events : List Peripheral) (p : Peripheral)
    (he : eligible p = true) (h : p.address ∉ (collect events).seen_addresses) :
    first_connectable_occurrence p.address (events ++ [p]) = events.length := by
  have hnone : ∀ x ∈ events,
      (x.is_connectable && decide (x.address = p.address)) = false := by
    intro x hx
    by_contra hcon
    simp only [Bool.not_eq_false, Bool.and_eq_true, decide_eq_true_eq] at hcon
    apply h
    rw [collect_seen_iff]
    refine ⟨x, hx, ?_, hcon.2⟩
    simp only [eligible, Bool.and_eq_true, decide_eq_true_eq] at he ⊢
    exact ⟨hcon.1, hcon.2 ▸ he.2⟩
  have hc : p.is_connectable = true := by
    simp only [eligible, Bool.and_eq_true] at he
    exact he.1
  unfold first_connectable_occurrence
  rw [List.findIdx_append, List.findIdx_eq_length_of_false hnone]
  simp [List.findIdx_cons, hc]

theorem collect_entries (events : List Peripheral) :
    ∀ x ∈ (collect events).scanned,
      eligible x = true ∧
        events[first_connectable_occurrence x.address events]? = some x := by
  induction events using List.reverseRecOn with
  | nil => simp [collect, scan_start]
  | append_singleton evs p ih =>
    rw [collect_snoc]
    have hold : ∀ x ∈ (collect evs).scanned,
        eligible x = true ∧
          (evs ++ [p])[first_connectable_occurrence x.address (evs ++ [p])]? = some x := by
      intro x hx
      obtain ⟨h1, h2⟩ := ih x hx
      have hlt : first_connectable_occurrence x.address evs < evs.length := by
        by_contra hge
        rw [List.getElem?_eq_none (by omega)] at h2
        exact absurd h2 (by simp)
      rw [first_connectable_occurrence_old _ _ _ hlt, List.getElem?_append_left hlt]
      exact ⟨h1, h2⟩
    cases he : eligible p with
    | false => rw [on_scan_found_rejected _ p he]; exact hold
    | true =>
      by_cases hs : p.address ∈ (collect evs).seen_addresses
      · rw [on_scan_found_duplicate _ p hs]; exact hold
      · rw [on_scan_found_accepted _ p he hs]
        intro x hx
        rcases List.mem_append.mp hx with hx | hx
        · exact hold x hx
        · simp only [List.mem_singleton] at hx
          subst hx
          rw [first_connectable_occurrence_new evs x he hs]
          simp [he]

theorem collect_ordered (events : List Peripheral) :
    (collect events).scanned.Pairwise (fun x y =>
      first_connectable_occurrence x.address events
        < first_connectable_occurrence y.address events) := by
  induction events using List.reverseRecOn with
  | nil => simp [collect, scan_start]
  | append_singleton evs p ih =>
    rw [collect_snoc]
    have hlt : ∀ x ∈ (collect evs).scanned,
        first_connectable_occurrence x.address evs < evs.length := by
      intro x hx
      have h2 := (collect_entries evs x hx).2
      by_contra hge
      rw [List.getElem?_eq_none (by omega)] at h2
      exact absurd h2 (by simp)
    have hold : (collect evs).scanned.Pairwise (fun x y =>
        first_connectable_occurrence x.address (evs ++ [p])
          < first_connectable_occurrence y.address (evs ++ [p])) := by
      refine List.Pairwise.imp_of_mem ?_ ih
      intro x y hx hy hxy
      rw [first_connectable_occurrence_old _ _ _ (hlt x hx),
        first_connectable_occurrence_old _ _ _ (hlt y hy)]
      exact hxy
    cases he : eligible p with
    | false => rw [on_scan_found_rejected _ p he]; exact hold
    | true =>
      by_cases hs : p.address ∈ (collect evs).seen_addresses
      · rw [on_scan_found_duplicate _ p hs]; exact hold
      · rw [on_scan_found_accepted _ p he hs]
        rw [List.pairwise_append]
        refine ⟨hold, List.pairwise_singleton _ _, ?_⟩
        intro x hx y hy
        simp only [List.mem_singleton] at hy
        subst hy
        rw [first_connectable_occurrence_old _ _ _ (hlt x hx),
          first_connectable_occurrence_new evs y he hs]
        exact hlt x hx

theorem collect_nodup (events : List Peripheral) :
    ((collect events).scanned.map Peripheral.address).Nodup := by
  rw [List.Nodup, List.pairwise_map]
  refine List.Pairwise.imp ?_ (collect_ordered events)
  intro x y hxy heq
  rw [heq] at hxy
  exact absurd hxy (Nat.lt_irrefl _)

theorem first_occurrence_all_connectable (a : String) (events : List Peripheral)
    (h : ∀ e ∈ events, e.is_connectable = true) :
    first_connectable_occurrence a events = first_occurrence a events := by
  unfold first_connectable_occurrence first_occurrence
  induction events with
  | nil => rfl
  | cons e es ih =>
    rw [List.findIdx_cons, List.findIdx_cons, h e (List.mem_cons_self e es),
      ih (fun x hx => h x (List.mem_cons_of_mem e hx))]
    simp

/-! ## Claims about the capability string -/

/-- C8 as stated fails: for a characteristic that can only be read the function
returns the label followed by a space, not the label alone. -/
theorem capabilities_string_trailing_space :
    capabilities_string read_only_characteristic = "read " ∧
      capabilities_spec read_only_characteristic = "read" ∧
      capabilities_string read_only_characteristic
        ≠ capabilities_spec read_only_characteristic := by
  decide

/-- C8, amended: `capabilities_string` returns the labels of exactly the flags that are
set, in the order read, write, write_no_resp, notify, indicate, each label followed by
one space (so the labels joined by single spaces, then one more space at the end), and
the token "none" when no flag is set. -/
theorem capabilities_string_labels (chr : Characteristic) :
    capabilities_string chr =
        (if capability_labels chr = [] then "none"
         else String.join ((capability_labels chr).map (fun label => label ++ " "))) ∧
      capabilities_string chr =
        (if capability_labels chr = [] then "none" else capabilities_spec chr ++ " ") ∧
      (capability_labels chr = [] ↔
        (chr.can_read = false ∧ chr.can_write_request = false ∧ chr.can_write_command = false
          ∧ chr.can_notify = false ∧ chr.can_indicate = false)) := by
  obtain ⟨uuid, r, w, c, n, i⟩ := chr
  cases r <;> cases w <;> cases c <;> cases n <;> cases i <;>
    exact ⟨rfl, rfl, by simp [capability_labels]⟩

/-! ## Claims about the scan callback -/

/-- C1 as stated fails: the address A first occurs in a non-connectable event, before
B, and is collected only from its later connectable event, after B. -/
theorem first_occurrence_order_counterexample :
    (collect [event_at "n1" "A" false, event_at "n2" "B" true,
        event_at "n3" "A" true]).scanned
      = [event_at "n2" "B" true, event_at "n3" "A" true] ∧
    ¬ (collect [event_at "n1" "A" false, event_at "n2" "B" true,
        event_at "n3" "A" true]).scanned.Pairwise (fun x y =>
      first_occurrence x.address
          [event_at "n1" "A" false, event_at "n2" "B" true, event_at "n3" "A" true]
        < first_occurrence y.address
          [event_at "n1" "A" false, event_at "n2" "B" true, event_at "n3" "A" true]) := by
  refine ⟨rfl, ?_⟩
  have h : (collect [event_at "n1" "A" false, event_at "n2" "B" true,
      event_at "n3" "A" true]).scanned
        = [event_at "n2" "B" true, event_at "n3" "A" true] := rfl
  rw [h]
  simp [first_occurrence, event_at, List.findIdx_cons]

/-- C1, amended: starting from an empty vector and an empty set, the collected vector
holds each address at most once, and its entries are ordered by the position at which
their address first occurs in a connectable event, each entry being the event at that
position; when every event is connectable this is the position at which the address
first occurs.  Events with addresses A, B, A, C, all connectable, give A, B, C. -/
theorem collector_dedup_first_seen_order (events : List Peripheral) :
    ((collect events).scanned.map Peripheral.address).Nodup ∧
      (collect events).scanned.Pairwise (fun x y =>
        first_connectable_occurrence x.address events
          < first_connectable_occurrence y.address events) ∧
      (∀ x ∈ (collect events).scanned,
        events[first_connectable_occurrence x.address events]? = some x) ∧
      ((∀ e ∈ events, e.is_connectable = true) →
        (collect events).scanned.Pairwise (fun x y =>
          first_occurrence x.address events < first_occurrence y.address events)) ∧
      (collect [event_at "n1" "A" true, event_at "n2" "B" true, event_at "n3" "A" true,
          event_at "n4" "C" true]).scanned
        = [event_at "n1" "A" true, event_at "n2" "B" true, event_at "n4" "C" true] := by
  refine ⟨collect_nodup events, collect_ordered events,
    fun x hx => (collect_entries events x hx).2, ?_, rfl⟩
  intro hall
  refine List.Pairwise.imp ?_ (collect_ordered events)
  intro x y hxy
  rw [first_occurrence_all_connectable _ _ hall, first_occurrence_all_connectable _ _ hall]
    at hxy
  exact hxy

theorem collector_dedup_first_seen_order_witness :
    (∀ e ∈ [event_at "n1" "A" true, event_at "n2" "B" true, event_at "n3" "A" true,
        event_at "n4" "C" true], e.is_connectable = true) ∧
      ((collect [event_at "n1" "A" true, event_at "n2" "B" true, event_at "n3" "A" true,
        event_at "n4" "C" true]).scanned.map Peripheral.address).Nodup ∧
      (collect [event_at "n1" "A" true, event_at "n2" "B" true, event_at "n3" "A" true,
        event_at "n4" "C" true]).scanned.Pairwise (fun x y =>
          first_occurrence x.address [event_at "n1" "A" true, event_at "n2" "B" true,
              event_at "n3" "A" true, event_at "n4" "C" true]
            < first_occurrence y.address [event_at "n1" "A" true, event_at "n2" "B" true,
              event_at "n3" "A" true, event_at "n4" "C" true]) :=
  have hall : ∀ e ∈ [event_at "n1" "A" true, event_at "n2" "B" true, event_at "n3" "A" true,
      event_at "n4" "C" true], e.is_connectable = true := by
    intro e he
    simp only [List.mem_cons, List.mem_singleton, List.not_mem_nil, or_false] at he
    rcases he with rfl | rfl | rfl | rfl <;> rfl
  have h := collector_dedup_first_seen_order [event_at "n1" "A" true, event_at "n2" "B" true,
    event_at "n3" "A" true, event_at "n4" "C" true]
  ⟨hall, h.1, h.2.2.2.1 hall⟩

/-- C7, connectable filter: an event whose peripheral is not connectable leaves the
callback's state as it was, so it is never appended; and every entry of `scanned`
after the scan is one of the delivered events, with its connectable flag set. -/
theorem connectable_filter (events : List Peripheral) :
    (∀ (st : ScanState) (p : Peripheral),
        p.is_connectable = false → on_scan_found st p = st) ∧
      ∀ p ∈ (collect events).scanned, p.is_connectable = true ∧ p ∈ events := by
  constructor
  · intro st p hp
    exact on_scan_found_rejected st p (by simp [eligible, hp])
  · intro p hp
    obtain ⟨he, hget⟩ := collect_entries events p hp
    simp only [eligible, Bool.and_eq_true] at he
    exact ⟨he.1, List.getElem?_mem hget⟩

theorem connectable_filter_witness :
    (event_at "n1" "A" false).is_connectable = false ∧
      on_scan_found scan_start (event_at "n1" "A" false) = scan_start ∧
      event_at "n2" "B" true ∈
        (collect [event_at "n1" "A" false, event_at "n2" "B" true]).scanned ∧
      (event_at "n2" "B" true).is_connectable = true :=
  have h := connectable_filter [event_at "n1" "A" false, event_at "n2" "B" true]
  have hmem : event_at "n2" "B" true ∈
      (collect [event_at "n1" "A" false, event_at "n2" "B" true]).scanned := by
    have hs : (collect [event_at "n1" "A" false, event_at "n2" "B" true]).scanned
        = [event_at "n2" "B" true] := rfl
    rw [hs]
    exact List.mem_singleton.mpr rfl
  ⟨rfl, h.1 scan_start (event_at "n1" "A" false) rfl, hmem, (h.2 _ hmem).1⟩

/-- C10, collector reference definition: the collected vector is the list of connectable
events with a non-empty address in which only the first event of each address is kept;
an event that is not connectable or has an empty address leaves the whole state
unchanged, so the scan ends in the same state as without it, while an eligible event
whose address is not yet in the set is appended and its address inserted; and after
every event the set holds exactly the addresses of the vector's entries, none empty. -/
theorem collector_reference (events : List Peripheral) :
    (collect events).scanned = collect_spec events ∧
      (∀ (st : ScanState) (p : Peripheral), eligible p = false → on_scan_found st p = st) ∧
      (∀ (before after : List Peripheral) (p : Peripheral), eligible p = false →
        collect (before ++ p :: after) = collect (before ++ after)) ∧
      (∀ (st : ScanState) (p : Peripheral), eligible p = true →
        p.address ∉ st.seen_addresses →
          (on_scan_found st p).scanned = st.scanned ++ [p] ∧
            (on_scan_found st p).seen_addresses = insert p.address st.seen_addresses) ∧
      ∀ n : Nat,
        (collect (events.take n)).seen_addresses =
            ((collect (events.take n)).scanned.map Peripheral.address).toFinset ∧
          "" ∉ (collect (events.take n)).seen_addresses := by
  refine ⟨collect_scanned_eq_spec events, on_scan_found_rejected, ?_, ?_, ?_⟩
  · intro before after p hp
    simp only [collect, List.foldl_append, List.foldl_cons]
    rw [on_scan_found_rejected _ p hp]
  · intro st p he hs
    rw [on_scan_found_accepted st p he hs]
    exact ⟨rfl, rfl⟩
  · intro n
    exact ⟨collect_seen_eq _, collect_seen_nonempty _⟩

theorem collector_reference_witness :
    eligible (event_at "n1" "A" false) = false ∧
      eligible (event_at "n3" "A" true) = true ∧
      collect ([event_at "n2" "B" true] ++ event_at "n1" "A" false :: [event_at "n3" "A" true])
        = collect ([event_at "n2" "B" true] ++ [event_at "n3" "A" true]) ∧
      (on_scan_found (collect [event_at "n2" "B" true, event_at "n1" "A" false])
          (event_at "n3" "A" true)).scanned
        = [event_at "n2" "B" true, event_at "n3" "A" true] :=
  have h := collector_reference [event_at "n2" "B" true, event_at "n1" "A" false,
    event_at "n3" "A" true]
  ⟨rfl, rfl, h.2.2.1 [event_at "n2" "B" true] [event_at "n3" "A" true]
      (event_at "n1" "A" false) rfl,
    (h.2.2.2.1 (collect [event_at "n2" "B" true, event_at "n1" "A" false])
      (event_at "n3" "A" true) rfl (by decide)).1⟩

/-! ## Claims about the target filter and `main` -/

theorem foldl_select (id : String) (acc scanned : List Peripheral) :
    scanned.foldl (fun targets p => if p.identifier = id then targets ++ [p] else targets) acc
      = acc ++ scanned.filter (fun p => decide (p.identifier = id)) := by
  induction scanned generalizing acc with
  | nil => simp
  | cons p ps ih =>
    rw [List.foldl_cons, ih]
    by_cases h : p.identifier = id
    · simp [List.filter_cons, h]
    · simp [List.filter_cons, h]

theorem select_targets_filter (scanned : List Peripheral) (id : String) :
    select_targets scanned id = scanned.filter (fun p => decide (p.identifier = id)) := by
  unfold select_targets
  rw [foldl_select]
  rfl

/-- C2, target selector: the `targets` vector built by the filter loop is the list of the
peripherals whose identifier equals the target identifier, in input order: a
subsequence of the input, unchanged when filtered again, with repeated identifiers
all kept.  Identifiers X, SHB1000, SHB1000 give the second and third input. -/
theorem select_targets_exact (scanned : List Peripheral) (id : String) :
    select_targets scanned id = scanned.filter (fun p => decide (p.identifier = id)) ∧
      List.Sublist (select_targets scanned id) scanned ∧
      select_targets (select_targets scanned id) id = select_targets scanned id ∧
      select_targets [event_at "X" "A" true, event_at "SHB1000" "B" true,
          event_at "SHB1000" "C" true] "SHB1000"
        = [event_at "SHB1000" "B" true, event_at "SHB1000" "C" true] := by
  refine ⟨select_targets_filter scanned id, ?_, ?_, rfl⟩
  · rw [select_targets_filter]
    exact List.filter_sublist _
  · simp only [select_targets_filter, List.filter_filter, Bool.and_self]

theorem collect_console (events : List Peripheral) :
    ∀ e ∈ (collect events).console, enumeration_event 0 e = true := by
  induction events using List.reverseRecOn with
  | nil => simp [collect, scan_start]
  | append_singleton evs p ih =>
    rw [collect_snoc]
    cases he : eligible p with
    | false => rw [on_scan_found_rejected _ p he]; exact ih
    | true =>
      by_cases hs : p.address ∈ (collect evs).seen_addresses
      · rw [on_scan_found_duplicate _ p hs]; exact ih
      · rw [on_scan_found_accepted _ p he hs]
        intro e hmem
        rcases List.mem_append.mp hmem with hmem | hmem
        · exact ih e hmem
        · simp only [List.mem_singleton] at hmem
          subst hmem
          rfl

theorem scan_for_connect_requests (adapter : Adapter) (ms : Nat) :
    connect_requests (scan_for adapter ms).trace = [] := by
  have hc := connect_requests_enumeration 0 _ (collect_console adapter.found)
  show connect_requests
    ([Event.scan_for ms,
        Event.cout ("Scanning for " ++ toString SCAN_TIMEOUT_SEC ++ " seconds...\n\n")]
      ++ (collect adapter.found).console ++ [Event.cout "\nScan complete.\n"]) = []
  rw [connect_requests_append, connect_requests_append, hc]
  rfl

theorem main_without_targets (adapter : Adapter)
    (h : select_targets (collect adapter.found).scanned DEVICE_IDENTIFIER = []) :
    main (some adapter) =
      ⟨(scan_for adapter (SCAN_TIMEOUT_SEC * 1000)).trace
          ++ [.cerr ("No " ++ DEVICE_IDENTIFIER ++ " devices found.\n")],
        .ok EXIT_FAILURE⟩ := by
  simp [main, Eff.bind_eq, Eff.pure_eq, Eff.andThen, scan_for, h, cerr]

theorem main_with_targets (adapter : Adapter)
    (h : select_targets (collect adapter.found).scanned DEVICE_IDENTIFIER ≠ []) :
    main (some adapter) =
      ⟨(scan_for adapter (SCAN_TIMEOUT_SEC * 1000)).trace ++
          Event.cout ("\nFound " ++ toString
              (select_targets (collect adapter.found).scanned DEVICE_IDENTIFIER).length
              ++ " " ++ DEVICE_IDENTIFIER
              ++ " device(s). Connecting to enumerate services...\n\n") ::
          (inspection_loop
            (select_targets (collect adapter.found).scanned DEVICE_IDENTIFIER)).trace,
        .ok EXIT_SUCCESS⟩ := by
  have hr := inspection_loop_result
    (select_targets (collect adapter.found).scanned DEVICE_IDENTIFIER)
  simp [main, Eff.bind_eq, Eff.pure_eq, Eff.andThen, scan_for, h, cout, hr]

/-- C6, exit status: without an adapter `main` prints one error, starts no scan and
returns `EXIT_FAILURE`; with an adapter whose scan collects no peripheral with the
target identifier it returns `EXIT_FAILURE` without any connect request; with an
adapter and at least one target it runs the inspection loop over all targets
(one connect request per target, in order) and returns `EXIT_SUCCESS`, which is 0,
whatever faults the targets raise. -/
theorem main_exit_status (adapter : Adapter) :
    main none = ⟨[.cerr "No Bluetooth adapter found.\n"], .ok EXIT_FAILURE⟩ ∧
      scans_started (main none).trace = 0 ∧
      EXIT_FAILURE ≠ 0 ∧ EXIT_SUCCESS = 0 ∧
      ((∀ p ∈ (collect adapter.found).scanned, p.identifier ≠ DEVICE_IDENTIFIER) →
        (main (some adapter)).result = .ok EXIT_FAILURE ∧
          connect_requests (main (some adapter)).trace = []) ∧
      ((∃ p ∈ (collect adapter.found).scanned, p.identifier = DEVICE_IDENTIFIER) →
        (main (some adapter)).result = .ok EXIT_SUCCESS ∧
          (main (some adapter)).trace =
            (scan_for adapter (SCAN_TIMEOUT_SEC * 1000)).trace ++
              Event.cout ("\nFound " ++ toString
                  (select_targets (collect adapter.found).scanned DEVICE_IDENTIFIER).length
                  ++ " " ++ DEVICE_IDENTIFIER
                  ++ " device(s). Connecting to enumerate services...\n\n") ::
              (inspection_loop
                (select_targets (collect adapter.found).scanned DEVICE_IDENTIFIER)).trace ∧
          connect_requests (main (some adapter)).trace =
            List.range
              (select_targets (collect adapter.found).scanned DEVICE_IDENTIFIER).length) := by
  refine ⟨rfl, rfl, by decide, rfl, ?_, ?_⟩
  · intro hnone
    have hempty : select_targets (collect adapter.found).scanned DEVICE_IDENTIFIER = [] := by
      rw [select_targets_filter, List.filter_eq_nil_iff]
      intro p hp
      simpa using hnone p hp
    rw [main_without_targets adapter hempty]
    refine ⟨rfl, ?_⟩
    rw [connect_requests_append, scan_for_connect_requests]
    rfl
  · rintro ⟨p, hp, hid⟩
    have hne : select_targets (collect adapter.found).scanned DEVICE_IDENTIFIER ≠ [] := by
      intro hempty
      rw [select_targets_filter, List.filter_eq_nil_iff] at hempty
      exact hempty p hp (by simpa using hid)
    rw [main_with_targets adapter hne]
    refine ⟨rfl, rfl, ?_⟩
    have hcons : ∀ (e : Event) (l : List Event), e :: l = [e] ++ l := fun _ _ => rfl
    rw [hcons, connect_requests_append, connect_requests_append, scan_for_connect_requests,
      inspection_loop_trace, segments_connect_requests, List.range_eq_range']
    rfl

theorem main_exit_status_witness :
    (∃ p ∈ (collect [device_connect_fault, event_at "X" "A" true, device_ok]).scanned,
        p.identifier = DEVICE_IDENTIFIER) ∧
      (main (some ⟨[device_connect_fault, event_at "X" "A" true, device_ok]⟩)).result
        = .ok EXIT_SUCCESS ∧
      connect_requests
          (main (some ⟨[device_connect_fault, event_at "X" "A" true, device_ok]⟩)).trace
        = [0, 1] ∧
      (∀ p ∈ (collect [event_at "X" "A" true]).scanned, p.identifier ≠ DEVICE_IDENTIFIER) ∧
      (main (some ⟨[event_at "X" "A" true]⟩)).result = .ok EXIT_FAILURE :=
  have hsome : ∃ p ∈ (collect [device_connect_fault, event_at "X" "A" true, device_ok]).scanned,
      p.identifier = DEVICE_IDENTIFIER :=
    ⟨device_ok, by
      have hs : (collect [device_connect_fault, event_at "X" "A" true, device_ok]).scanned
          = [device_connect_fault, event_at "X" "A" true, device_ok] := rfl
      rw [hs]
      simp, rfl⟩
  have hnone : ∀ p ∈ (collect [event_at "X" "A" true]).scanned,
      p.identifier ≠ DEVICE_IDENTIFIER := by
    intro p hp
    have hs : (collect [event_at "X" "A" true]).scanned = [event_at "X" "A" true] := rfl
    rw [hs, List.mem_singleton] at hp
    subst hp
    decide
  have h1 := (main_exit_status ⟨[device_connect_fault, event_at "X" "A" true, device_ok]⟩).2.2.2.2.2
    hsome
  have h2 := (main_exit_status ⟨[event_at "X" "A" true]⟩).2.2.2.2.1 hnone
  ⟨hsome, h1.1, h1.2.2, hnone, h2.1⟩

end BleScanner
